import Mathlib

/-!
# Verification of the Lib_UART_Extension_Pack link-layer protocol engine

A shallow embedding of the C sources of the UART Extension Pack driver:

* the byte-pair ring buffer (`lib/ExtPack/src/ExtPack_Ringbuffer_Internal.c`),
* the transmit engine, buffered and queueless variants
  (`src/ExtPack/HAL/ExtPack_LL_atmega328p.c`,
  `lib/UARTExtPack/src/ExtPack_LL_M328P.c`),
* the receive state machine (`ISR(USART_RX_vect)` / `ISR(TIMER0_OVF_vect)` in
  `src/ExtPack/HAL/ExtPack_LL_atmega328p.c`),
* the event store (`src/ExtPack/Core/ExtPack_Events.c` and the legacy
  `lib/UARTExtPack/src/ExtPack_Events.c`),
* the unit registry dispatch and send bookkeeping
  (`lib/UARTExtPack/src/ExtPack.c`).

Machine integers are modelled as `Nat` with explicit truncation (`% 2^w`,
`&&& mask`) exactly where the C code can overflow; C arrays of fixed size are
modelled as total functions `Nat → Nat` (every access the code performs is
shown to be in bounds where that is the property at stake); fallible calls
return the C error code (`EXT_PACK_SUCCESS = 0`, `EXT_PACK_FAILURE = 1`)
together with the updated state.
-/

namespace ExtPack

/-- `#define EXT_PACK_SUCCESS 0` (`ExtPack_Defs.h`). -/
def EXT_PACK_SUCCESS : Nat := 0

/-- `#define EXT_PACK_FAILURE 1` (`ExtPack_Defs.h`). -/
def EXT_PACK_FAILURE : Nat := 1

/-- Truncation to `uint16_t`. -/
def u16 (v : Nat) : Nat := v % 2 ^ 16

/-- Truncation to `uint8_t`. -/
def u8 (v : Nat) : Nat := v % 2 ^ 8

/-! ## Ring buffer (`ExtPack_Ringbuffer_Internal.c` / `.h`)

`ringbuffer_metadata_t` holds a pointer to the element array, the length,
the free-slot count and the two indices.  The element array (`uint16_t[n]`)
is modelled as a total function `Nat → Nat`; only indices below `buf_len`
are ever in the code's footprint. -/

structure Ringbuffer where
  data : Nat → Nat
  buf_len : Nat
  free_slots : Nat
  next_read_slot_index : Nat
  next_write_slot_index : Nat

/-- `init_ringbuffer_metadata`: fresh metadata over a `buf_len`-element
array (the C array contents start arbitrary; zero is used here). -/
def init_ringbuffer_metadata (buf_len : Nat) : Ringbuffer :=
  { data := fun _ => 0
    buf_len := buf_len
    free_slots := buf_len
    next_read_slot_index := 0
    next_write_slot_index := 0 }

/-- `write_buf`: fail (returning `EXT_PACK_FAILURE`, state untouched) when
`free_slots == 0`; otherwise store at `next_write_slot_index`, advance the
write index modulo `buf_len`, decrement `free_slots`.  The body runs inside
`enter_critical_zone`/`exit_critical_zone`, which save and restore the
interrupt flag and have no effect on the buffer state. -/
def write_buf (m : Ringbuffer) (data : Nat) : Nat × Ringbuffer :=
  if m.free_slots = 0 then
    (EXT_PACK_FAILURE, m)
  else
    (EXT_PACK_SUCCESS,
      { m with
        data := fun j => if j = m.next_write_slot_index then u16 data else m.data j
        next_write_slot_index := (m.next_write_slot_index + 1) % m.buf_len
        free_slots := m.free_slots - 1 })

/-- `read_buf`: fail when `free_slots == metadata->buf_len` (buffer empty);
otherwise read at `next_read_slot_index`, advance the read index modulo
`buf_len`, increment `free_slots`.  The read value is returned as
`some value` (the C code stores it through the `data` out-pointer). -/
def read_buf (m : Ringbuffer) : Nat × Option Nat × Ringbuffer :=
  if m.free_slots = m.buf_len then
    (EXT_PACK_FAILURE, none, m)
  else
    (EXT_PACK_SUCCESS, some (m.data m.next_read_slot_index),
      { m with
        next_read_slot_index := (m.next_read_slot_index + 1) % m.buf_len
        free_slots := m.free_slots + 1 })

/-- `is_buf_full` (`ExtPack_Ringbuffer_Internal.h`): `free_slots == 0`. -/
def is_buf_full (m : Ringbuffer) : Bool := m.free_slots == 0

/-- `is_buf_empty` (`ExtPack_Ringbuffer_Internal.h`):
`free_slots == buf_len`. -/
def is_buf_empty (m : Ringbuffer) : Bool := m.free_slots == m.buf_len

/-! ### Operation sequences over the ring buffer -/

/-- One client call on the ring buffer. -/
inductive BufOp where
  | write (v : Nat)
  | read
deriving DecidableEq, Repr

/-- Observable result of one call: the returned error code, and for reads
the value delivered through the out-pointer (`none` on failure). -/
inductive BufOut where
  | wrote (ret : Nat)
  | readv (ret : Nat) (v : Option Nat)
deriving DecidableEq, Repr

/-- Run a sequence of calls against the concrete ring buffer. -/
def runBuf (m : Ringbuffer) : List BufOp → Ringbuffer × List BufOut
  | [] => (m, [])
  | BufOp.write v :: rest =>
    let r := write_buf m v
    let t := runBuf r.2 rest
    (t.1, BufOut.wrote r.1 :: t.2)
  | BufOp.read :: rest =>
    let r := read_buf m
    let t := runBuf r.2.2 rest
    (t.1, BufOut.readv r.1 r.2.1 :: t.2)

/-- Specification-side model: a plain bounded FIFO list, front at the head.
A write appends when fewer than `cap` entries are stored, a read removes the
head.  Values are truncated to 16 bits as the buffer stores `uint16_t`. -/
def runAbs (cap : Nat) (q : List Nat) : List BufOp → List Nat × List BufOut
  | [] => (q, [])
  | BufOp.write v :: rest =>
    if q.length = cap then
      let t := runAbs cap q rest
      (t.1, BufOut.wrote EXT_PACK_FAILURE :: t.2)
    else
      let t := runAbs cap (q ++ [u16 v]) rest
      (t.1, BufOut.wrote EXT_PACK_SUCCESS :: t.2)
  | BufOp.read :: rest =>
    match q with
    | [] =>
      let t := runAbs cap [] rest
      (t.1, BufOut.readv EXT_PACK_FAILURE none :: t.2)
    | x :: xs =>
      let t := runAbs cap xs rest
      (t.1, BufOut.readv EXT_PACK_SUCCESS (some x) :: t.2)

/-- Coupling invariant between the concrete metadata and the abstract FIFO
list: the stored entries are exactly `q`, laid out from
`next_read_slot_index` onward modulo `buf_len`. -/
def BufInv (cap : Nat) (m : Ringbuffer) (q : List Nat) : Prop :=
  m.buf_len = cap ∧
  0 < cap ∧
  q.length ≤ cap ∧
  m.free_slots = cap - q.length ∧
  m.next_read_slot_index < cap ∧
  m.next_write_slot_index = (m.next_read_slot_index + q.length) % cap ∧
  ∀ i, i < q.length → m.data ((m.next_read_slot_index + i) % cap) = q.getD i 0


/-! ## Receive state machine
(`ISR(USART_RX_vect)` and `ISR(TIMER0_OVF_vect)` in
`src/ExtPack/HAL/ExtPack_LL_atmega328p.c`)

The state is the `recv_state` variable
(`RECV_UNIT_NEXT_STATE` / `RECV_DATA_NEXT_STATE` / `RECV_INVALID_UNIT`),
the saved `received_unit` byte, and the watchdog-armed flag (the `TOIE0`
bit of `TIMSK0`, together with the `TCNT0 = 190` reload which the model
folds into arming).  Each received byte carries the hardware
frame/parity-error flags of `UCSR0A` (`FE0`/`UPE0`), modelled as one
boolean. -/

/-- `recv_state` values. -/
inductive RecvPhase where
  | awaitUnit
  | awaitData
  | invalidUnit
deriving DecidableEq, Repr

/-- The receive-side machine state. -/
structure RecvState where
  phase : RecvPhase
  received_unit : Nat
  wd_armed : Bool
deriving DecidableEq, Repr

/-- Power-on state: `recv_state = RECV_UNIT_NEXT_STATE`, globals
zero-initialised, timer overflow interrupt disabled. -/
def recvInit : RecvState :=
  { phase := RecvPhase.awaitUnit, received_unit := 0, wd_armed := false }

/-- `ISR(USART_RX_vect)`: one received byte `val` with error flag `err`
(`UCSR0A & ((1<<FE0)|(1<<UPE0))` nonzero). Returns the new state and the
dispatch handed to `process_received_ExtPack_data`, if any.  Note that in
`RECV_DATA_NEXT_STATE` with an error flag set the handler does nothing at
all: the state, the pending `received_unit` and the armed watchdog are
left as they are. -/
def usart_rx_isr (s : RecvState) (val : Nat) (err : Bool) :
    RecvState × Option (Nat × Nat) :=
  match s.phase with
  | RecvPhase.awaitUnit =>
    ({ phase := if err then RecvPhase.invalidUnit else RecvPhase.awaitData
       received_unit := u8 val
       wd_armed := true }, none)
  | RecvPhase.awaitData =>
    if err then
      (s, none)
    else
      ({ s with phase := RecvPhase.awaitUnit, wd_armed := false },
        some (s.received_unit, u8 val))
  | RecvPhase.invalidUnit =>
    ({ s with phase := RecvPhase.awaitUnit, wd_armed := false }, none)

/-- `ISR(TIMER0_OVF_vect)`: reset the state machine and disable the timer
interrupt. -/
def timer0_ovf_isr (s : RecvState) : RecvState :=
  { s with phase := RecvPhase.awaitUnit, wd_armed := false }

/-- An event driving the receive machine: a byte delivered by the UART
receive-complete interrupt, or a watchdog (timer overflow) interrupt. -/
inductive RxEvent where
  | byte (val : Nat) (err : Bool)
  | timeout
deriving DecidableEq, Repr

/-- One receive-side interrupt. -/
def recvStep (s : RecvState) : RxEvent → RecvState × Option (Nat × Nat)
  | RxEvent.byte val err => usart_rx_isr s val err
  | RxEvent.timeout => (timer0_ovf_isr s, none)

/-- Run the receive machine over an event sequence, collecting the
dispatched `(unit, data)` pairs in order. -/
def recvRun (s : RecvState) : List RxEvent → RecvState × List (Nat × Nat)
  | [] => (s, [])
  | e :: rest =>
    let r := recvStep s e
    let t := recvRun r.1 rest
    (t.1, (match r.2 with | some p => [p] | none => []) ++ t.2)

/-! ## Transmit engine (`send_UART_ExtPack_command` and `ISR(USART_UDRE_vect)`
in `src/ExtPack/HAL/ExtPack_LL_atmega328p.c`; the legacy
`_send_UART_ExtPack_message` in `lib/UARTExtPack/src/ExtPack_LL_M328P.c` has
the identical body)

The hardware and driver transmit state: the outbound ring buffer
(`send_buf` / `send_buf_metadata`), the UART data register `UDR0`, the
`UDRE0` flag of `UCSR0A` (data register empty), the `UDRIE0` bit of
`UCSR0B` (data-register-empty interrupt enable), the pending second byte
`next_data_to_send`, the `next_data_to_send_is_buffer_pair` flag of the
buffered ISR, and the global interrupt-enable flag (the `I` bit of `SREG`,
`cli()` clears it and `sei()` sets it). Writing `UDR0` starts a byte send,
which clears the hardware `UDRE0` flag. -/

structure LLState where
  send_buf_metadata : Ringbuffer
  udr : Nat
  udre : Bool
  udrie : Bool
  next_data_to_send : Nat
  next_data_to_send_is_buffer_pair : Bool
  iflag : Bool

/-- `send_UART_ExtPack_command`, buffered variant (`SEND_BUF_LEN > 0`):
`cli()`; remember whether the buffer was empty; enqueue
`((uint16_t)unit << 8) | data`; if the buffer was empty and the write
succeeded, set `UDRIE0`; `sei()`; return the `write_buf` code. -/
def send_UART_ExtPack_command_buffered (s : LLState) (unit data : Nat) :
    Nat × LLState :=
  let s1 := { s with iflag := false }
  let is_first_command := is_buf_empty s1.send_buf_metadata
  let buf_data := u8 unit * 2 ^ 8 ||| u8 data
  let r := write_buf s1.send_buf_metadata buf_data
  let s2 := { s1 with send_buf_metadata := r.2 }
  let s3 := if is_first_command && (r.1 == EXT_PACK_SUCCESS) then
      { s2 with udrie := true }
    else s2
  (r.1, { s3 with iflag := true })

/-- `_send_UART_ExtPack_message` (`lib/UARTExtPack/src/ExtPack_LL_M328P.c`,
always buffered with a 10-slot buffer): same body as the buffered
`send_UART_ExtPack_command`. -/
def _send_UART_ExtPack_message (s : LLState) (unit data : Nat) :
    Nat × LLState :=
  let s1 := { s with iflag := false }
  let is_first_command := is_buf_empty s1.send_buf_metadata
  let buf_data := u8 unit * 2 ^ 8 ||| u8 data
  let r := write_buf s1.send_buf_metadata buf_data
  let s2 := { s1 with send_buf_metadata := r.2 }
  let s3 := if is_first_command && (r.1 == EXT_PACK_SUCCESS) then
      { s2 with udrie := true }
    else s2
  (r.1, { s3 with iflag := true })

/-- `send_UART_ExtPack_command`, queueless variant (`SEND_BUF_LEN == 0`):
`cli()`; if `UDRE0` is set and `UDRIE0` is clear, write the unit byte to
`UDR0`, store the data byte in `next_data_to_send`, set `UDRIE0`, `sei()`
and succeed; otherwise `sei()` and fail with no other side effect. -/
def send_UART_ExtPack_command_queueless (s : LLState) (unit data : Nat) :
    Nat × LLState :=
  let s1 := { s with iflag := false }
  if s1.udre && !s1.udrie then
    (EXT_PACK_SUCCESS,
      { s1 with
        udr := u8 unit
        udre := false
        next_data_to_send := u8 data
        udrie := true
        iflag := true })
  else
    (EXT_PACK_FAILURE, { s1 with iflag := true })

/-- `ISR(USART_UDRE_vect)`, queueless variant: write `next_data_to_send`
to `UDR0` and clear `UDRIE0`. -/
def usart_udre_isr_queueless (s : LLState) : LLState :=
  { s with udr := s.next_data_to_send, udre := false, udrie := false }

/-- `ISR(USART_UDRE_vect)`, buffered variant: if not mid-pair, dequeue the
next entry and send its high byte, keeping its low byte for the next
interrupt (or disable `UDRIE0` when the buffer is empty); if mid-pair, send
the stored second byte and disable `UDRIE0` when the buffer is empty. -/
def usart_udre_isr_buffered (s : LLState) : LLState :=
  if s.next_data_to_send_is_buffer_pair then
    let r := read_buf s.send_buf_metadata
    if r.1 == EXT_PACK_SUCCESS then
      let v := r.2.1.getD 0
      { s with
        send_buf_metadata := r.2.2
        udr := v / 2 ^ 8
        udre := false
        next_data_to_send := v % 2 ^ 8
        next_data_to_send_is_buffer_pair := false }
    else
      { s with send_buf_metadata := r.2.2, udrie := false }
  else
    let s2 := { s with
      next_data_to_send_is_buffer_pair := true
      udr := s.next_data_to_send
      udre := false }
    if is_buf_empty s.send_buf_metadata then { s2 with udrie := false } else s2

/-! ## Event store

Current variant: `src/ExtPack/Core/ExtPack_Events.c`, where the single-bit
mask is built as `(uint64_t)1 << unit` (the source comments that the cast
is necessary).  Legacy variant: `lib/UARTExtPack/src/ExtPack_Events.c`,
where the mask is the plain `int` expression `1 << unit`; on the AVR
target `int` is 16 bits wide, so the shift wraps at bit 15 (avr-gcc shifts
by repeated one-bit shifts in a 16-bit register, giving `2^unit mod 2^16`)
and the signed 16-bit result is then sign-extended when it meets the
`uint64_t` event word. -/

/-- `set_ExtPack_event` (current): `unit_events |= ((uint64_t)1 << unit)`. -/
def set_ExtPack_event (events unit : Nat) : Nat :=
  (events ||| (1 <<< unit) % 2 ^ 64) % 2 ^ 64

/-- `get_ExtPack_event` (current):
`(unit_events & ((uint64_t)1 << unit)) > 0`. -/
def get_ExtPack_event (events unit : Nat) : Bool :=
  decide (0 < events &&& (1 <<< unit) % 2 ^ 64)

/-- `clear_ExtPack_event` (current):
`unit_events &= ~((uint64_t)1 << unit)`. -/
def clear_ExtPack_event (events unit : Nat) : Nat :=
  events &&& ((2 ^ 64 - 1) ^^^ (1 <<< unit) % 2 ^ 64)

/-- The value of the legacy 16-bit `int` expression `1 << unit` after its
implicit conversion to `uint64_t`: the low 16 bits are `2^unit mod 2^16`,
sign-extended into the upper 48 bits when bit 15 is set. -/
def legacy_event_mask (unit : Nat) : Nat :=
  let v := (1 <<< unit) % 2 ^ 16
  if v < 2 ^ 15 then v else 2 ^ 64 - 2 ^ 16 + v

/-- `set_ExtPack_event` (legacy): `unit_events |= (1 << unit)` with the
16-bit `int` mask. -/
def legacy_set_ExtPack_event (events unit : Nat) : Nat :=
  (events ||| legacy_event_mask unit) % 2 ^ 64

/-- `get_ExtPack_event` (legacy): `(unit_events & (1 << unit)) > 0` with
the 16-bit `int` mask. -/
def legacy_get_ExtPack_event (events unit : Nat) : Bool :=
  decide (0 < events &&& legacy_event_mask unit)

/-- `clear_ExtPack_event` (legacy): `unit_events &= ~(1 << unit)` with the
16-bit `int` mask. -/
def legacy_clear_ExtPack_event (events unit : Nat) : Nat :=
  events &&& ((2 ^ 64 - 1) ^^^ legacy_event_mask unit)

/-! ## Unit registry (`lib/UARTExtPack/src/ExtPack.c`)

`units[USED_UNITS]` (type tag and callback) and `unit_data[USED_UNITS]`
(`input_values`, `output_values`), with `USED_UNITS` = 64.  Both arrays
are modelled as total functions; `process_received_indices` records the
indices at which the C function subscripts them. -/

/-- `#define USED_UNITS 64`. -/
def USED_UNITS : Nat := 64

/-- `#define ACC_MODE0_BIT 6`. -/
def ACC_MODE0_BIT : Nat := 6

/-- `#define ACC_MODE1_BIT 7`. -/
def ACC_MODE1_BIT : Nat := 7

/-- `#define ACK_STATE 0` (bit 0 of the Ack unit's `output_values`). -/
def ACK_STATE : Nat := 0

/-- `#define ACK_EVENT 7` (bit 7 of the Ack unit's `output_values`). -/
def ACK_EVENT : Nat := 7

/-- `#define EXTPACK_UNDEFINED 0`. -/
def EXTPACK_UNDEFINED : Nat := 0

/-- `#define EXTPACK_ACK_UNIT 3`. -/
def EXTPACK_ACK_UNIT : Nat := 3

/-- `#define EXTPACK_GPIO_UNIT 4`. -/
def EXTPACK_GPIO_UNIT : Nat := 4

/-- `#define EXTPACK_SPI_UNIT 7`. -/
def EXTPACK_SPI_UNIT : Nat := 7

/-- `#define EXTPACK_I2C_UNIT 8`. -/
def EXTPACK_I2C_UNIT : Nat := 8

/-- The `units[]` / `unit_data[]` arrays. -/
structure Registry where
  unit_type : Nat → Nat
  has_custom_isr : Nat → Bool
  input_values : Nat → Nat
  output_values : Nat → Nat

/-- The guard of `process_received_ExtPack_data`:
`unit <= USED_UNITS && !(unit & (1<<ACC_MODE1_BIT)) &&
!(unit & (1<<ACC_MODE0_BIT))`. -/
def process_received_guard (unit : Nat) : Bool :=
  decide (unit ≤ USED_UNITS) &&
  (unit &&& (1 <<< ACC_MODE1_BIT) == 0) &&
  (unit &&& (1 <<< ACC_MODE0_BIT) == 0)

/-- The indices at which `process_received_ExtPack_data` subscripts
`units[]` and `unit_data[]`: inside the guard every access uses `unit`
itself; outside the guard there is no access. -/
def process_received_indices (unit : Nat) : List Nat :=
  if process_received_guard unit then [unit] else []

/-- `process_received_ExtPack_data`: under the guard, switch on
`units[unit].unit_type` (Undefined returns before any callback; GPIO and
I2C store the byte in `input_values`; Ack stores the byte and sets the
`ACK_EVENT` bit of `output_values`; other type tags store nothing), then
invoke the unit's callback when one is registered.  The second component
reports whether the callback was invoked. -/
def process_received_ExtPack_data (st : Registry) (unit data : Nat) :
    Registry × Bool :=
  if process_received_guard unit then
    if st.unit_type unit = EXTPACK_UNDEFINED then
      (st, false)
    else
      let st2 :=
        if st.unit_type unit = EXTPACK_GPIO_UNIT ∨
            st.unit_type unit = EXTPACK_I2C_UNIT then
          { st with
            input_values := fun j => if j = unit then u8 data else st.input_values j }
        else if st.unit_type unit = EXTPACK_ACK_UNIT then
          { st with
            input_values := fun j => if j = unit then u8 data else st.input_values j
            output_values := fun j =>
              if j = unit then u8 (st.output_values j ||| 1 <<< ACK_EVENT)
              else st.output_values j }
        else st
      (st2, st.has_custom_isr unit)
  else (st, false)

/-- The `int`-typed mask `~(1<<ACK_STATE) | ((data>0)<<ACK_STATE)` of the
Ack branch of `send_to_ExtPack`, as a 16-bit pattern: `0xFFFE` when
`data == 0` and `0xFFFF` when `data > 0`. -/
def ack_state_mask (data : Nat) : Nat :=
  (2 ^ 16 - 2) ||| (if 0 < data then 1 <<< ACK_STATE else 0)

/-- The saved-output bookkeeping on the success branch of
`send_to_ExtPack` (`lib/UARTExtPack/src/ExtPack.c`; the same statements
appear in `lib/UARTExtPack/src/UARTExtPack.c`): GPIO with access-mode bit
6 clear, and SPI/I2C with access-mode bit 6 set, store the sent byte in
`output_values`; the Ack unit executes
`unit_data[unit].output_values &= (~(1<<ACK_STATE) | ((data>0)<<ACK_STATE))`. -/
def send_to_ExtPack_store (st : Registry) (unit data : Nat) : Registry :=
  if st.unit_type unit = EXTPACK_GPIO_UNIT ∧ unit &&& (1 <<< ACC_MODE0_BIT) = 0 then
    { st with
      output_values := fun j => if j = unit then u8 data else st.output_values j }
  else if st.unit_type unit = EXTPACK_SPI_UNIT ∧ unit &&& (1 <<< ACC_MODE0_BIT) ≠ 0 then
    { st with
      output_values := fun j => if j = unit then u8 data else st.output_values j }
  else if st.unit_type unit = EXTPACK_I2C_UNIT ∧ unit &&& (1 <<< ACC_MODE0_BIT) ≠ 0 then
    { st with
      output_values := fun j => if j = unit then u8 data else st.output_values j }
  else if st.unit_type unit = EXTPACK_ACK_UNIT then
    { st with
      output_values := fun j =>
        if j = unit then u8 (st.output_values j &&& ack_state_mask data)
        else st.output_values j }
  else st

/-- `send_to_ExtPack` (`lib/UARTExtPack/src/ExtPack.c`): range-check the
address bits, delegate the two-byte transmission to
`_send_UART_ExtPack_message` (its result is passed in as `ll_ret`), and on
success update the saved outputs. -/
def send_to_ExtPack (st : Registry) (unit data ll_ret : Nat) :
    Nat × Registry :=
  if unit &&& 63 < USED_UNITS then
    if ll_ret = EXT_PACK_SUCCESS then
      (EXT_PACK_SUCCESS, send_to_ExtPack_store st unit data)
    else
      (EXT_PACK_FAILURE, st)
  else (EXT_PACK_FAILURE, st)

/-! ## Concrete fixture states used for closed evaluations -/

/-- A two-slot ring buffer with no free slot. -/
def fullBuf2 : Ringbuffer :=
  { data := fun _ => 0
    buf_len := 2
    free_slots := 0
    next_read_slot_index := 0
    next_write_slot_index := 0 }

/-- A short mixed sequence of buffer calls. -/
def demoOps : List BufOp :=
  [BufOp.write 7, BufOp.write 9, BufOp.read, BufOp.write 3,
   BufOp.read, BufOp.read, BufOp.read]

/-- Transmit state whose outbound ring buffer is full, with global
interrupts disabled by the caller. -/
def llFull : LLState :=
  { send_buf_metadata := fullBuf2
    udr := 0
    udre := true
    udrie := false
    next_data_to_send := 0
    next_data_to_send_is_buffer_pair := true
    iflag := false }

/-- Idle transmit state: empty four-slot buffer, data register empty,
transmit interrupt disabled, global interrupts disabled by the caller. -/
def llIdle : LLState :=
  { send_buf_metadata := init_ringbuffer_metadata 4
    udr := 0
    udre := true
    udrie := false
    next_data_to_send := 0
    next_data_to_send_is_buffer_pair := true
    iflag := false }

/-- Receive machine in `RECV_INVALID_UNIT` with the watchdog armed. -/
def sInvalidDemo : RecvState :=
  { phase := RecvPhase.invalidUnit, received_unit := 9, wd_armed := true }

/-- Receive machine in `RECV_DATA_NEXT_STATE` with the watchdog armed. -/
def sAwaitDataDemo : RecvState :=
  { phase := RecvPhase.awaitData, received_unit := 5, wd_armed := true }

/-- A registry with the Ack unit registered at its conventional address 2
and all stored values zero. -/
def ackRegistry : Registry :=
  { unit_type := fun j => if j = 2 then EXTPACK_ACK_UNIT else EXTPACK_UNDEFINED
    has_custom_isr := fun _ => false
    input_values := fun _ => 0
    output_values := fun _ => 0 }

theorem getD_append_lt {q : List Nat} {v : Nat} {i : Nat} (h : i < q.length) :
    (q ++ [v]).getD i 0 = q.getD i 0 := by
  induction q generalizing i with
  | nil => exact absurd h (by simp)
  | cons x xs ih =>
    cases i with
    | zero => rfl
    | succ j => exact ih (by simp only [List.length_cons] at h; omega)

theorem getD_append_len (q : List Nat) (v : Nat) :
    (q ++ [v]).getD q.length 0 = v := by
  induction q with
  | nil => rfl
  | cons x xs ih => simp only [List.cons_append, List.length_cons, List.getD_cons_succ]; exact ih

theorem BufInv_write_ok {cap : Nat} {m : Ringbuffer} {q : List Nat} {v : Nat}
    (inv : BufInv cap m q) (hfull : q.length < cap) :
    (write_buf m v).1 = EXT_PACK_SUCCESS ∧
    BufInv cap (write_buf m v).2 (q ++ [u16 v]) := by
  obtain ⟨hlen, hcap, hle, hfree, hr, hw, hdat⟩ := inv
  have hfree0 : m.free_slots ≠ 0 := by omega
  constructor
  · simp [write_buf, hfree0]
  · refine ⟨by simp [write_buf, hfree0, hlen], hcap, by simp; omega,
      by simp [write_buf, hfree0]; omega,
      by simp [write_buf, hfree0, hr], ?_, ?_⟩
    · simp only [write_buf, if_neg hfree0]
      rw [hlen, hw, Nat.mod_add_mod]
      congr 1
      simp
      omega
    · intro i hi
      have hi' : i < q.length + 1 := by simpa using hi
      simp only [write_buf, if_neg hfree0]
      by_cases hcase : i = q.length
      · have hidx : (m.next_read_slot_index + i) % cap = m.next_write_slot_index := by
          rw [hw, hcase]
        rw [if_pos hidx, hcase, getD_append_len]
      · have hilt : i < q.length := by omega
        have hne : (m.next_read_slot_index + i) % cap ≠ m.next_write_slot_index := by
          rw [hw]
          intro h
          have h2 : m.next_read_slot_index + i ≡
              m.next_read_slot_index + q.length [MOD cap] := h
          have h3 : i ≡ q.length [MOD cap] := Nat.ModEq.add_left_cancel' _ h2
          have h4 : i % cap = q.length % cap := h3
          rw [Nat.mod_eq_of_lt (by omega), Nat.mod_eq_of_lt (by omega)] at h4
          exact hcase h4
        rw [if_neg hne, hdat i hilt, getD_append_lt hilt]

theorem BufInv_write_full {cap : Nat} {m : Ringbuffer} {q : List Nat} {v : Nat}
    (inv : BufInv cap m q) (hfull : q.length = cap) :
    write_buf m v = (EXT_PACK_FAILURE, m) := by
  obtain ⟨hlen, hcap, hle, hfree, hr, hw, hdat⟩ := inv
  have hfree0 : m.free_slots = 0 := by omega
  simp [write_buf, hfree0]

theorem BufInv_read_ok {cap : Nat} {m : Ringbuffer} {x : Nat} {xs : List Nat}
    (inv : BufInv cap m (x :: xs)) :
    read_buf m = (EXT_PACK_SUCCESS, some x,
      { m with
        next_read_slot_index := (m.next_read_slot_index + 1) % cap
        free_slots := m.free_slots + 1 }) ∧
    BufInv cap
      { m with
        next_read_slot_index := (m.next_read_slot_index + 1) % cap
        free_slots := m.free_slots + 1 } xs := by
  obtain ⟨hlen, hcap, hle, hfree, hr, hw, hdat⟩ := inv
  simp only [List.length_cons] at hle hfree hw
  have hne : m.free_slots ≠ m.buf_len := by rw [hlen]; omega
  have hx : m.data m.next_read_slot_index = x := by
    have := hdat 0 (by simp)
    simpa [Nat.mod_eq_of_lt hr] using this
  constructor
  · rw [read_buf, if_neg hne, hx, hlen]
  · refine ⟨hlen, hcap, by omega, ?_, Nat.mod_lt _ hcap, ?_, ?_⟩
    · show m.free_slots + 1 = cap - xs.length
      omega
    · show m.next_write_slot_index =
        ((m.next_read_slot_index + 1) % cap + xs.length) % cap
      rw [hw, Nat.mod_add_mod]
      congr 1
      omega
    · intro i hi
      show m.data (((m.next_read_slot_index + 1) % cap + i) % cap) = xs.getD i 0
      rw [Nat.mod_add_mod]
      have harr : m.next_read_slot_index + 1 + i =
          m.next_read_slot_index + (i + 1) := by omega
      rw [harr, hdat (i + 1) (by simpa using Nat.succ_lt_succ hi)]
      rfl

theorem BufInv_read_empty {cap : Nat} {m : Ringbuffer}
    (inv : BufInv cap m []) :
    read_buf m = (EXT_PACK_FAILURE, none, m) := by
  obtain ⟨hlen, hcap, hle, hfree, hr, hw, hdat⟩ := inv
  have : m.free_slots = m.buf_len := by simp at hfree; omega
  simp [read_buf, this]

/-- Simulation: from any coupled pair of states, the concrete run and the
abstract FIFO run produce identical observable outputs and stay coupled. -/
theorem runBuf_sim {cap : Nat} (ops : List BufOp) :
    ∀ (m : Ringbuffer) (q : List Nat), BufInv cap m q →
      (runBuf m ops).2 = (runAbs cap q ops).2 ∧
      BufInv cap (runBuf m ops).1 (runAbs cap q ops).1 := by
  induction ops with
  | nil => intro m q inv; exact ⟨rfl, inv⟩
  | cons op rest ih =>
    intro m q inv
    cases op with
    | write v =>
      by_cases hfull : q.length = cap
      · have hweq := BufInv_write_full inv hfull (v := v)
        obtain ⟨h1, h2⟩ := ih m q inv
        refine ⟨?_, ?_⟩
        · show BufOut.wrote (write_buf m v).1 :: (runBuf (write_buf m v).2 rest).2 =
            (runAbs cap q (BufOp.write v :: rest)).2
          rw [hweq]
          simp only [runAbs, if_pos hfull]
          rw [h1]
        · show BufInv cap (runBuf (write_buf m v).2 rest).1
            (runAbs cap q (BufOp.write v :: rest)).1
          rw [hweq]
          simp only [runAbs, if_pos hfull]
          exact h2
      · have hlt : q.length < cap := Nat.lt_of_le_of_ne inv.2.2.1 hfull
        obtain ⟨hret, hinv⟩ := BufInv_write_ok inv hlt (v := v)
        obtain ⟨h1, h2⟩ := ih (write_buf m v).2 (q ++ [u16 v]) hinv
        refine ⟨?_, ?_⟩
        · show BufOut.wrote (write_buf m v).1 :: (runBuf (write_buf m v).2 rest).2 =
            (runAbs cap q (BufOp.write v :: rest)).2
          simp only [runAbs, if_neg hfull]
          rw [hret, h1]
        · show BufInv cap (runBuf (write_buf m v).2 rest).1
            (runAbs cap q (BufOp.write v :: rest)).1
          simp only [runAbs, if_neg hfull]
          exact h2
    | read =>
      cases q with
      | nil =>
        have hreq := BufInv_read_empty inv
        obtain ⟨h1, h2⟩ := ih m [] inv
        refine ⟨?_, ?_⟩
        · show BufOut.readv (read_buf m).1 (read_buf m).2.1 ::
            (runBuf (read_buf m).2.2 rest).2 = (runAbs cap [] (BufOp.read :: rest)).2
          rw [hreq]
          simp only [runAbs]
          rw [h1]
        · show BufInv cap (runBuf (read_buf m).2.2 rest).1
            (runAbs cap [] (BufOp.read :: rest)).1
          rw [hreq]
          simp only [runAbs]
          exact h2
      | cons x xs =>
        obtain ⟨hreq, hinv⟩ := BufInv_read_ok inv
        obtain ⟨h1, h2⟩ := ih _ xs hinv
        refine ⟨?_, ?_⟩
        · show BufOut.readv (read_buf m).1 (read_buf m).2.1 ::
            (runBuf (read_buf m).2.2 rest).2 = (runAbs cap (x :: xs) (BufOp.read :: rest)).2
          rw [hreq]
          simp only [runAbs]
          rw [h1]
        · show BufInv cap (runBuf (read_buf m).2.2 rest).1
            (runAbs cap (x :: xs) (BufOp.read :: rest)).1
          rw [hreq]
          simp only [runAbs]
          exact h2

theorem BufInv_init (cap : Nat) (hcap : 0 < cap) :
    BufInv cap (init_ringbuffer_metadata cap) [] := by
  refine ⟨rfl, hcap, by simp, by simp [init_ringbuffer_metadata], ?_, ?_, ?_⟩
  · simpa [init_ringbuffer_metadata] using hcap
  · simp [init_ringbuffer_metadata]
  · intro i hi; exact absurd hi (by simp)

/-! ## Claim theorems -/

/-- Claim C2: for every sequence of `write_buf` and `read_buf` calls on an
initialized ring buffer, `read_buf` returns the stored 16-bit entries in
exactly the order they were written (the concrete run is observationally
equal to a plain FIFO list bounded by the capacity), and a `write_buf`
call on a full buffer (`free_slots == 0`) returns `EXT_PACK_FAILURE` and
leaves the buffer contents, indices and free-slot count unchanged. -/
theorem C2_ringbuffer_fifo :
    (∀ (m : Ringbuffer) (v : Nat), m.free_slots = 0 →
      write_buf m v = (EXT_PACK_FAILURE, m)) ∧
    ∀ (cap : Nat), 0 < cap → ∀ ops : List BufOp,
      (runBuf (init_ringbuffer_metadata cap) ops).2 = (runAbs cap [] ops).2 := by
  constructor
  · intro m v h
    simp [write_buf, h]
  · intro cap hcap ops
    exact (runBuf_sim ops _ _ (BufInv_init cap hcap)).1

/-- Witness for C2 at a full buffer and at a concrete call sequence. -/
theorem C2_ringbuffer_fifo_witness :
    write_buf fullBuf2 5 = (EXT_PACK_FAILURE, fullBuf2) ∧
    (runBuf (init_ringbuffer_metadata 2) demoOps).2 = (runAbs 2 [] demoOps).2 :=
  ⟨C2_ringbuffer_fifo.1 fullBuf2 5 rfl,
   C2_ringbuffer_fifo.2 2 (by decide) demoOps⟩

/-- Claim C6: for every initialized ring buffer,
`free_slots + (number of entries currently stored) == capacity` holds
after initialization and is preserved by every `write_buf` / `read_buf`
call on both success and failure paths; the number of currently stored
entries is the length of the abstract FIFO queue, which by `C2` is exactly
the multiset of written-but-not-yet-read entries. -/
theorem C6_slot_conservation :
    ∀ (cap : Nat), 0 < cap → ∀ ops : List BufOp,
      (runBuf (init_ringbuffer_metadata cap) ops).1.free_slots +
        (runAbs cap [] ops).1.length = cap := by
  intro cap hcap ops
  obtain ⟨h1, h2, h3, h4, h5, h6, h7⟩ :=
    (runBuf_sim ops _ _ (BufInv_init cap hcap)).2
  omega

/-- Witness for C6 at capacity 4 and a concrete call sequence. -/
theorem C6_slot_conservation_witness :
    (runBuf (init_ringbuffer_metadata 4) demoOps).1.free_slots +
      (runAbs 4 [] demoOps).1.length = 4 :=
  C6_slot_conservation 4 (by decide) demoOps

/-- Claim C4: the buffered submit returns `EXT_PACK_FAILURE` exactly when
the ring buffer is full, and otherwise returns `EXT_PACK_SUCCESS` having
enqueued the pair; on the failure path the ring buffer (contents,
`free_slots`, both indices) and the `UDRIE0` transmit-interrupt-enable
bit are left unchanged. -/
theorem C4_buffered_submit :
    ∀ (s : LLState) (unit data : Nat),
      ((send_UART_ExtPack_command_buffered s unit data).1 = EXT_PACK_FAILURE ↔
        s.send_buf_metadata.free_slots = 0) ∧
      (s.send_buf_metadata.free_slots = 0 →
        (send_UART_ExtPack_command_buffered s unit data).2.send_buf_metadata =
          s.send_buf_metadata ∧
        (send_UART_ExtPack_command_buffered s unit data).2.udrie = s.udrie) ∧
      (s.send_buf_metadata.free_slots ≠ 0 →
        (send_UART_ExtPack_command_buffered s unit data).1 = EXT_PACK_SUCCESS ∧
        (send_UART_ExtPack_command_buffered s unit data).2.send_buf_metadata =
          (write_buf s.send_buf_metadata (u8 unit * 2 ^ 8 ||| u8 data)).2) := by
  intro s unit data
  by_cases h : s.send_buf_metadata.free_slots = 0
  · refine ⟨⟨fun _ => h, fun _ => ?_⟩, fun _ => ?_, fun hc => absurd h hc⟩
    · simp [send_UART_ExtPack_command_buffered, write_buf, h,
        EXT_PACK_FAILURE, EXT_PACK_SUCCESS]
    · constructor <;>
        simp [send_UART_ExtPack_command_buffered, write_buf, h,
          EXT_PACK_FAILURE, EXT_PACK_SUCCESS]
  · have hret : (send_UART_ExtPack_command_buffered s unit data).1 =
        EXT_PACK_SUCCESS := by
      simp [send_UART_ExtPack_command_buffered, write_buf, h]
    refine ⟨⟨fun hf => ?_, fun hc => absurd hc h⟩, fun hc => absurd hc h,
      fun _ => ⟨hret, ?_⟩⟩
    · rw [hret] at hf
      exact absurd hf (by decide)
    · by_cases hfirst : is_buf_empty s.send_buf_metadata <;>
        simp [send_UART_ExtPack_command_buffered, write_buf, h, hfirst,
          EXT_PACK_FAILURE, EXT_PACK_SUCCESS]

/-- Witness for C4: failure on a full buffer leaves buffer and `UDRIE0`
unchanged; success on an idle engine. -/
theorem C4_buffered_submit_witness :
    ((send_UART_ExtPack_command_buffered llFull 3 65).2.send_buf_metadata =
      llFull.send_buf_metadata ∧
     (send_UART_ExtPack_command_buffered llFull 3 65).2.udrie = llFull.udrie) ∧
    (send_UART_ExtPack_command_buffered llIdle 3 65).1 = EXT_PACK_SUCCESS :=
  ⟨(C4_buffered_submit llFull 3 65).2.1 rfl,
   ((C4_buffered_submit llIdle 3 65).2.2 (by decide)).1⟩

/-- Claim C5: queueless submit on an idle engine (`UDRE0` set, `UDRIE0`
clear) succeeds, writes the unit byte to `UDR0`, stores the data byte as
the pending second byte and enables `UDRIE0`; while the pair is pending
(`UDRIE0` set) or the data register is busy (`UDRE0` clear) — in
particular for a second submit issued right after a successful one —
submit fails without touching `UDR0`, `next_data_to_send`, `UDRE0` or
`UDRIE0`; and the transmit-empty interrupt handler sends exactly the
pre-stored second byte and disables itself. -/
theorem C5_queueless_submit :
    ∀ (s : LLState) (unit data : Nat),
      (s.udre = true → s.udrie = false →
        (send_UART_ExtPack_command_queueless s unit data).1 = EXT_PACK_SUCCESS ∧
        (send_UART_ExtPack_command_queueless s unit data).2.udr = u8 unit ∧
        (send_UART_ExtPack_command_queueless s unit data).2.next_data_to_send =
          u8 data ∧
        (send_UART_ExtPack_command_queueless s unit data).2.udrie = true) ∧
      (s.udrie = true ∨ s.udre = false →
        (send_UART_ExtPack_command_queueless s unit data).1 = EXT_PACK_FAILURE ∧
        (send_UART_ExtPack_command_queueless s unit data).2.udr = s.udr ∧
        (send_UART_ExtPack_command_queueless s unit data).2.udre = s.udre ∧
        (send_UART_ExtPack_command_queueless s unit data).2.udrie = s.udrie ∧
        (send_UART_ExtPack_command_queueless s unit data).2.next_data_to_send =
          s.next_data_to_send) ∧
      (s.udre = true → s.udrie = false → ∀ u2 d2 : Nat,
        (send_UART_ExtPack_command_queueless
          (send_UART_ExtPack_command_queueless s unit data).2 u2 d2).1 =
          EXT_PACK_FAILURE) ∧
      ((usart_udre_isr_queueless s).udr = s.next_data_to_send ∧
        (usart_udre_isr_queueless s).udrie = false) := by
  intro s unit data
  refine ⟨fun h1 h2 => ?_, fun h => ?_, fun h1 h2 u2 d2 => ?_, rfl, rfl⟩
  · simp [send_UART_ExtPack_command_queueless, h1, h2]
  · rcases h with h | h <;>
      simp [send_UART_ExtPack_command_queueless, h]
  · simp [send_UART_ExtPack_command_queueless, h1, h2]

/-- Witness for C5 at the idle engine: first submit succeeds, the
immediately following submit fails. -/
theorem C5_queueless_submit_witness :
    (send_UART_ExtPack_command_queueless llIdle 3 65).1 = EXT_PACK_SUCCESS ∧
    (send_UART_ExtPack_command_queueless
      (send_UART_ExtPack_command_queueless llIdle 3 65).2 4 66).1 =
      EXT_PACK_FAILURE :=
  ⟨((C5_queueless_submit llIdle 3 65).1 rfl rfl).1,
   (C5_queueless_submit llIdle 3 65).2.2.1 rfl rfl 4 66⟩

/-- Claim C3: the receive state machine's transitions.  From
`RECV_INVALID_UNIT`, any byte (any content, any error flag) returns to
`RECV_UNIT_NEXT_STATE` with the watchdog disarmed and no dispatch; a clean
first byte in `RECV_UNIT_NEXT_STATE` stores it and moves to
`RECV_DATA_NEXT_STATE` arming the watchdog; a framing error on the first
byte moves to `RECV_INVALID_UNIT` arming the watchdog; a watchdog timeout
while awaiting the data byte forces `RECV_UNIT_NEXT_STATE` with the
watchdog disarmed and no dispatch. -/
theorem C3_recv_transitions :
    ∀ s : RecvState,
      (∀ (v : Nat) (e : Bool), s.phase = RecvPhase.invalidUnit →
        recvStep s (RxEvent.byte v e) =
          ({ s with phase := RecvPhase.awaitUnit, wd_armed := false }, none)) ∧
      (∀ v : Nat, s.phase = RecvPhase.awaitUnit →
        recvStep s (RxEvent.byte v false) =
          ({ phase := RecvPhase.awaitData, received_unit := u8 v,
             wd_armed := true }, none)) ∧
      (∀ v : Nat, s.phase = RecvPhase.awaitUnit →
        recvStep s (RxEvent.byte v true) =
          ({ phase := RecvPhase.invalidUnit, received_unit := u8 v,
             wd_armed := true }, none)) ∧
      (s.phase = RecvPhase.awaitData → s.wd_armed = true →
        recvStep s RxEvent.timeout =
          ({ s with phase := RecvPhase.awaitUnit, wd_armed := false }, none)) := by
  intro s
  obtain ⟨ph, ru, wd⟩ := s
  refine ⟨fun v e h => ?_, fun v h => ?_, fun v h => ?_, fun h hw => ?_⟩ <;>
    (simp only at h; subst h) <;>
    simp [recvStep, usart_rx_isr, timer0_ovf_isr]

/-- Witness for C3 at concrete states. -/
theorem C3_recv_transitions_witness :
    recvStep sInvalidDemo (RxEvent.byte 200 true) =
      ({ sInvalidDemo with phase := RecvPhase.awaitUnit, wd_armed := false },
        none) ∧
    recvStep sAwaitDataDemo RxEvent.timeout =
      ({ sAwaitDataDemo with phase := RecvPhase.awaitUnit, wd_armed := false },
        none) :=
  ⟨(C3_recv_transitions sInvalidDemo).1 200 true rfl,
   (C3_recv_transitions sAwaitDataDemo).2.2.2 rfl rfl⟩

/-- Counterexample to claim C1: run the receive handler from the initial
state on the byte sequence "clean unit byte 5, data byte 11 with framing
error, clean byte 12", with no watchdog expiry in between.  The claim
requires that after the framing error on the data byte the pair (5, ·) is
aborted and no later clean byte is ever dispatched paired with the stale
unit byte 5 — so this run must produce no dispatch pairing 5.  The code,
however, leaves `recv_state` at `RECV_DATA_NEXT_STATE` on the erroneous
data byte and then dispatches `(5, 12)`: the stale unit byte is paired
with the later clean byte, and the two dispatched bytes were not
consecutive on the wire. -/
theorem C1_counterexample :
    (recvRun recvInit
      [RxEvent.byte 5 false, RxEvent.byte 11 true, RxEvent.byte 12 false]).2 =
      [(5, 12)] := by
  decide

/-- Claim C1 as amended: a dispatch to the Unit Registry occurs exactly
when a clean byte is received while the machine is in
`RECV_DATA_NEXT_STATE`, and the dispatched pair is the stored
`received_unit` together with that byte — the stored unit byte may be the
first byte of an earlier aborted pair, since a framing error on the data
byte leaves the machine in `RECV_DATA_NEXT_STATE` with the watchdog still
armed.  A lone clean unit byte followed by a watchdog timeout produces
zero dispatches. -/
theorem C1_amended :
    (∀ (s : RecvState) (e : RxEvent) (p : Nat × Nat),
      (recvStep s e).2 = some p ↔
        s.phase = RecvPhase.awaitData ∧
        ∃ v : Nat, e = RxEvent.byte v false ∧ p = (s.received_unit, u8 v)) ∧
    ∀ u : Nat,
      (recvRun recvInit [RxEvent.byte u false, RxEvent.timeout]).2 = [] := by
  constructor
  · intro s e p
    obtain ⟨ph, ru, wd⟩ := s
    cases e with
    | byte v err =>
      cases ph <;> cases err <;>
        simp [recvStep, usart_rx_isr, eq_comm]
    | timeout =>
      cases ph <;> simp [recvStep, timer0_ovf_isr]
  · intro u
    simp [recvRun, recvStep, usart_rx_isr, timer0_ovf_isr, recvInit]

/-- Witness for the amended C1: a clean byte in `RECV_DATA_NEXT_STATE`
dispatches the stored unit with the received byte. -/
theorem C1_amended_witness :
    (recvStep sAwaitDataDemo (RxEvent.byte 12 false)).2 = some (5, 12) :=
  (C1_amended.1 sAwaitDataDemo (RxEvent.byte 12 false) (5, 12)).mpr
    ⟨rfl, 12, rfl, rfl⟩

/-- Claim C7 evaluated at the failing input of the legacy event store
(`lib/UARTExtPack/src/ExtPack_Events.c`): with the mask computed as the
16-bit `int` expression `1 << unit`, `set_ExtPack_event(16)` on a clear
event word leaves the word 0 — bit 16 is not set — and
`get_ExtPack_event(16)` returns false no matter what the event word
holds.  The current variant (`src/ExtPack/Core/ExtPack_Events.c`),
whose source comments that the `(uint64_t)` cast is necessary, sets
exactly bit 16 as the claim states. -/
theorem C7_legacy_event_bug :
    legacy_set_ExtPack_event 0 16 = 0 ∧
    (∀ events : Nat, legacy_get_ExtPack_event events 16 = false) ∧
    set_ExtPack_event 0 16 = 2 ^ 16 := by
  refine ⟨rfl, fun events => ?_, rfl⟩
  have h : legacy_event_mask 16 = 0 := rfl
  rw [legacy_get_ExtPack_event, h]
  simp

/-- Claim C8 evaluated at its failing input: sending nonzero data byte
0x41 to the Ack unit (address 2) via `send_to_ExtPack` succeeds, yet
bit 0 (`ACK_STATE`) of the stored `output_values` stays 0 instead of
becoming 1: the statement
`output_values &= (~(1<<ACK_STATE) | ((data>0)<<ACK_STATE))` masks with
0xFF when `data > 0`, so it can only ever clear the bit (for `data == 0`),
never set it. -/
theorem C8_ack_state_bug :
    (send_to_ExtPack ackRegistry 2 65 EXT_PACK_SUCCESS).1 = EXT_PACK_SUCCESS ∧
    (send_to_ExtPack ackRegistry 2 65 EXT_PACK_SUCCESS).2.output_values 2 = 0 ∧
    ((send_to_ExtPack ackRegistry 2 65 EXT_PACK_SUCCESS).2.output_values 2
      &&& 1 <<< ACK_STATE) = 0 := by
  refine ⟨rfl, ?_, ?_⟩ <;> decide

/-- Counterexample to claim C9: the buffered submit does not restore the
caller's prior global interrupt-enable state.  Called with global
interrupts disabled (`iflag = false`), it returns with them enabled on
both the failure branch (full buffer, `llFull`) and the success branch
(idle engine, `llIdle`): the body is `cli(); ...; sei(); return ret;`,
with an unconditional `sei()` exactly as in the early queueless revision. -/
theorem C9_counterexample :
    ¬ ((send_UART_ExtPack_command_buffered llFull 3 65).2.iflag =
        llFull.iflag ∧
       (send_UART_ExtPack_command_buffered llIdle 3 65).2.iflag =
        llIdle.iflag) := by
  decide

/-- Claim C9 as amended: the buffered submit
(`send_UART_ExtPack_command` with `SEND_BUF_LEN > 0`, and the legacy
`_send_UART_ExtPack_message`) unconditionally enables global interrupts
before returning, on both the success and the failure branch, regardless
of the caller's prior interrupt-enable state — the unconditional-`sei`
hazard of the early revision is still present in the buffered revision. -/
theorem C9_amended :
    ∀ (s : LLState) (unit data : Nat),
      (send_UART_ExtPack_command_buffered s unit data).2.iflag = true ∧
      (_send_UART_ExtPack_message s unit data).2.iflag = true :=
  fun _ _ _ => ⟨rfl, rfl⟩

/-- Claim C10: every index at which `process_received_ExtPack_data`
subscripts the 64-element `units[]` and `unit_data[]` arrays is in
bounds.  The range guard `unit <= USED_UNITS` alone would admit the
out-of-bounds index 64, but the additional requirements that access-mode
bits 6 and 7 of the unit byte are clear exclude it (64 has bit 6 set), so
every index used is at most 63.  Outside the guard the function touches
nothing. -/
theorem C10_process_received_inbounds :
    (∀ (unit : Nat), ∀ i ∈ process_received_indices unit, i < 64) ∧
    ∀ (st : Registry) (unit data : Nat),
      process_received_guard unit = false →
      process_received_ExtPack_data st unit data = (st, false) := by
  constructor
  · intro unit i hi
    unfold process_received_indices at hi
    by_cases h : process_received_guard unit = true
    · rw [if_pos h] at hi
      simp only [List.mem_singleton] at hi
      rw [hi]
      unfold process_received_guard USED_UNITS ACC_MODE0_BIT ACC_MODE1_BIT at h
      simp only [Bool.and_eq_true, decide_eq_true_eq, beq_iff_eq] at h
      obtain ⟨⟨h1, h2⟩, h3⟩ := h
      rcases Nat.lt_or_ge unit 64 with h4 | h4
      · exact h4
      · have h64 : unit = 64 := by omega
        rw [h64] at h3
        exact absurd h3 (by decide)
    · rw [if_neg h] at hi
      exact absurd hi (by simp)
  · intro st unit data h
    unfold process_received_ExtPack_data
    rw [h]
    rfl

/-- Witness for C10 at unit byte 5 (in range, both access-mode bits
clear) and at unit byte 64 (rejected by the guard). -/
theorem C10_process_received_inbounds_witness :
    (5 : Nat) < 64 ∧
    process_received_ExtPack_data ackRegistry 64 7 = (ackRegistry, false) :=
  ⟨C10_process_received_inbounds.1 5 5 (by decide),
   C10_process_received_inbounds.2 ackRegistry 64 7 (by decide)⟩

end ExtPack
